import Mathlib

/-!
Verification development for the pizza-shop ordering workflow
(`src/Python/archive/2_1_factory.py`).

The Python module is embedded shallowly:
  * the four concrete `Pizza` classes become the constructors of an
    inductive type `Pizza`; an instance's `prepare` method becomes a
    function returning the printed line;
  * the class-level dictionaries `PizzaFactory.registry` and
    `PizzaFactory.categories` become association lists inside an explicit
    `FactoryState` that is threaded through the registry operations
    (Python dict insertion = first-key overwrite / append; Python set
    `add` = add-if-absent);
  * exceptions (all `ValueError` in the source, distinguished by their
    message) become an error type `PizzaError` carried by `Except`;
  * `print` side effects relevant to the claims (`Order.prepare`,
    `Order.deliver`) are modelled as the list of emitted lines, paired
    with the post-state of the object.
-/

/-- The four concrete pizza classes of the source.  A value of this type is
both "the constructor stored in the registry" and "a constructed instance":
the Python constructors take no arguments, so an instance carries no data
beyond its class. -/
inductive Pizza where
  | margherita
  | paneer
  | chicken
  | farmhouse
deriving DecidableEq

/-- The line printed by each concrete `prepare` method. -/
def Pizza.prepare : Pizza → String
  | .margherita => "Margherita: Cheese only!"
  | .paneer => "Paneer Pizza: Spicy paneer chunks!"
  | .chicken => "Chicken Pizza: Grilled chicken!"
  | .farmhouse => "Farmhouse Pizza: Loaded with veggies!"

/-- The errors the source raises.  In Python all three are `ValueError`
with distinct messages; the constructors carry the data interpolated into
the message.  `unknownPizzaType` is raised by `PizzaFactory.get_pizza`,
`chefCantPrepare` by `VegChef`/`NonVegChef`, `noChefAvailable` by
`HeadChef.place_order`. -/
inductive PizzaError where
  | unknownPizzaType (name : String)
  | chefCantPrepare (chef : String) (name : String)
  | noChefAvailable (name : String)
deriving DecidableEq

instance {ε α : Type} [DecidableEq ε] [DecidableEq α] : DecidableEq (Except ε α)
  | Except.ok a, Except.ok b =>
      if h : a = b then isTrue (h ▸ rfl) else isFalse fun hc => h (Except.ok.inj hc)
  | Except.ok _, Except.error _ => isFalse fun hc => Except.noConfusion hc
  | Except.error _, Except.ok _ => isFalse fun hc => Except.noConfusion hc
  | Except.error e, Except.error f =>
      if h : e = f then isTrue (h ▸ rfl) else isFalse fun hc => h (Except.error.inj hc)

/-- First-match lookup in an association list (Python dict lookup). -/
def lookupAssoc {α : Type} : List (String × α) → String → Option α
  | [], _ => none
  | (k, v) :: rest, j => if j = k then some v else lookupAssoc rest j

/-- Python dict assignment `d[k] = v`: overwrite the existing binding of
`k` in place, or append a new binding. -/
def insertAssoc {α : Type} : List (String × α) → String → α → List (String × α)
  | [], k, v => [(k, v)]
  | (k0, v0) :: rest, k, v =>
      if k0 = k then (k, v) :: rest else (k0, v0) :: insertAssoc rest k v

/-- Python set `add`: insert the element if it is not already present. -/
def setAdd (l : List String) (n : String) : List String :=
  if n ∈ l then l else l ++ [n]

/-- `cls.categories.setdefault(category, set()).add(name)`: ensure a set
exists for `category` (creating an empty one if absent) and add `name` to
it. -/
def addToCategory : List (String × List String) → String → String → List (String × List String)
  | [], cat, n => [(cat, [n])]
  | (c0, s0) :: rest, cat, n =>
      if c0 = cat then (c0, setAdd s0 n) :: rest
      else (c0, s0) :: addToCategory rest cat n

/-- The class-level state of `PizzaFactory`: the constructor registry and
the category membership sets. -/
structure FactoryState where
  registry : List (String × Pizza)
  categories : List (String × List String)
deriving DecidableEq

/-- The state before any `register` call: both dicts empty. -/
def emptyFactory : FactoryState := ⟨[], []⟩

/-- `PizzaFactory.register(name, constructor, category)`. -/
def PizzaFactory.register (s : FactoryState) (name : String) (ctor : Pizza)
    (category : String) : FactoryState :=
  { registry := insertAssoc s.registry name ctor
    categories := addToCategory s.categories category name }

/-- `PizzaFactory.get_pizza(name)`: look up the constructor and invoke it;
raise `ValueError("Unknown pizza type: ...")` if absent. -/
def PizzaFactory.get_pizza (s : FactoryState) (name : String) : Except PizzaError Pizza :=
  match lookupAssoc s.registry name with
  | some ctor => .ok ctor
  | none => .error (.unknownPizzaType name)

/-- `PizzaFactory.get_category(category)`: the category's member set, or
the empty set if the category is unknown (`dict.get` default). -/
def PizzaFactory.get_category (s : FactoryState) (category : String) : List String :=
  (lookupAssoc s.categories category).getD []

/-- `VegChef.prepare_pizza`. -/
def VegChef.prepare_pizza (s : FactoryState) (pizza_type : String) : Except PizzaError Pizza :=
  if pizza_type ∈ PizzaFactory.get_category s "veg" then
    PizzaFactory.get_pizza s pizza_type
  else .error (.chefCantPrepare "VegChef" pizza_type)

/-- `NonVegChef.prepare_pizza`. -/
def NonVegChef.prepare_pizza (s : FactoryState) (pizza_type : String) : Except PizzaError Pizza :=
  if pizza_type ∈ PizzaFactory.get_category s "nonveg" then
    PizzaFactory.get_pizza s pizza_type
  else .error (.chefCantPrepare "NonVegChef" pizza_type)

/-- `HeadChef.place_order`: try each chef of `chef_registry.values()` in
insertion order; a chef is a resolution function (its `prepare_pizza`
method).  Any `ValueError` a chef raises — every `PizzaError` models a
`ValueError` — is caught and the loop continues; if the loop finishes,
raise `ValueError("No chef available ...")`. -/
def HeadChef.place_order : List (String → Except PizzaError Pizza) → String →
    Except PizzaError Pizza
  | [], pizza_type => .error (.noChefAvailable pizza_type)
  | chef :: rest, pizza_type =>
      match chef pizza_type with
      | .ok p => .ok p
      | .error _ => HeadChef.place_order rest pizza_type

/-- The `Order` object: caller-supplied id paired with the resolved pizza. -/
structure Order where
  order_id : Nat
  pizza : Pizza
deriving DecidableEq

/-- `Order.prepare`: prints the chef line for this order id, then calls the
pizza's `prepare`.  Returned pair: (object state after the call, lines
printed). -/
def Order.prepare (o : Order) : Order × List String :=
  (o, ["Chef: Preparing Order #" ++ toString o.order_id, o.pizza.prepare])

/-- `Order.deliver`: prints the waiter line for this order id, then calls
the pizza's `prepare` (the source's copy-paste quirk: delivery re-triggers
preparation).  Returned pair: (object state after the call, lines
printed). -/
def Order.deliver (o : Order) : Order × List String :=
  (o, ["Waiter: Delivering Order #" ++ toString o.order_id, o.pizza.prepare])

/-- `Receptionist.take_order(pizza_type, order_id)`: delegate to the
kitchen (a `HeadChef` over `chefs`); wrap a success in a new `Order`;
let a failure propagate unchanged. -/
def Receptionist.take_order (chefs : List (String → Except PizzaError Pizza))
    (pizza_type : String) (order_id : Nat) : Except PizzaError Order :=
  match HeadChef.place_order chefs pizza_type with
  | .ok pizza => .ok ⟨order_id, pizza⟩
  | .error e => .error e

/-- `Waiter.deliver(order)`: invokes `order.deliver()`. -/
def Waiter.deliver (o : Order) : Order × List String := Order.deliver o

/-- Replay a list of `(name, constructor, category)` registration calls
from a given state. -/
def applyRegs (s : FactoryState) : List (String × Pizza × String) → FactoryState
  | [] => s
  | (n, k, c) :: rest => applyRegs (PizzaFactory.register s n k c) rest

/-- The four module-level `PizzaFactory.register` calls of the source, in
order. -/
def initRegs : List (String × Pizza × String) :=
  [("margherita", .margherita, "veg"),
   ("paneer", .paneer, "veg"),
   ("farmhouse", .farmhouse, "veg"),
   ("chicken", .chicken, "nonveg")]

/-- The registry state after module initialisation. -/
def initialState : FactoryState := applyRegs emptyFactory initRegs

/-- The simulation's `chef_registry = {"veg": VegChef(), "nonveg":
NonVegChef()}`, as `.values()` enumerates it (dict insertion order). -/
def simChefs (s : FactoryState) : List (String → Except PizzaError Pizza) :=
  [VegChef.prepare_pizza s, NonVegChef.prepare_pizza s]

/-- Every name appearing in some category's member set has a registered
constructor.  `PizzaFactory.register` is the only mutator and maintains
this. -/
def RegistryInv (s : FactoryState) : Prop :=
  ∀ n c, n ∈ PizzaFactory.get_category s c → ∃ p, lookupAssoc s.registry n = some p

/-! ### Laws of the registry operations -/

theorem mem_setAdd (l : List String) (n m : String) :
    m ∈ setAdd l n ↔ (m ∈ l ∨ m = n) := by
  unfold setAdd
  by_cases h : n ∈ l
  · rw [if_pos h]
    constructor
    · exact Or.inl
    · rintro (hm | rfl)
      · exact hm
      · exact h
  · rw [if_neg h]
    simp [List.mem_append]

theorem lookup_insertAssoc {α : Type} (l : List (String × α)) (k j : String) (v : α) :
    lookupAssoc (insertAssoc l k v) j = if j = k then some v else lookupAssoc l j := by
  induction l with
  | nil => simp [insertAssoc, lookupAssoc]
  | cons hd tl ih =>
      obtain ⟨k0, v0⟩ := hd
      by_cases h : k0 = k
      · subst h
        simp only [insertAssoc, if_pos rfl]
        by_cases hj : j = k0 <;> simp [lookupAssoc, hj]
      · simp only [insertAssoc, if_neg h]
        by_cases hj : j = k0
        · have hjk : ¬j = k := fun hc => h (hj.symm.trans hc)
          simp [lookupAssoc, hj, hjk, h]
        · simp [lookupAssoc, hj, ih]

theorem mem_addToCategory (cats : List (String × List String)) (cat n c m : String) :
    m ∈ (lookupAssoc (addToCategory cats cat n) c).getD [] ↔
      (m ∈ (lookupAssoc cats c).getD [] ∨ (m = n ∧ c = cat)) := by
  induction cats with
  | nil =>
      by_cases hc : c = cat
      · subst hc
        simp [addToCategory, lookupAssoc]
      · simp [addToCategory, lookupAssoc, hc]
  | cons hd tl ih =>
      obtain ⟨c0, s0⟩ := hd
      by_cases h : c0 = cat
      · subst h
        by_cases hc : c = c0
        · simp [addToCategory, lookupAssoc, mem_setAdd, hc]
        · simp [addToCategory, lookupAssoc, hc]
      · simp only [addToCategory, if_neg h]
        by_cases hc : c = c0
        · have hne : ¬c = cat := fun hcc => h (hc.symm.trans hcc)
          simp [lookupAssoc, hc, hne, h]
        · simp only [lookupAssoc, if_neg hc]
          exact ih

theorem register_lookup (s : FactoryState) (n j : String) (k : Pizza) (cat : String) :
    lookupAssoc (PizzaFactory.register s n k cat).registry j =
      if j = n then some k else lookupAssoc s.registry j :=
  lookup_insertAssoc s.registry n j k

theorem register_mem_category (s : FactoryState) (n : String) (k : Pizza) (cat j c : String) :
    j ∈ PizzaFactory.get_category (PizzaFactory.register s n k cat) c ↔
      (j ∈ PizzaFactory.get_category s c ∨ (j = n ∧ c = cat)) :=
  mem_addToCategory s.categories cat n c j

theorem applyRegs_mem_category (l : List (String × Pizza × String)) (s : FactoryState)
    (j c : String) :
    j ∈ PizzaFactory.get_category (applyRegs s l) c ↔
      (j ∈ PizzaFactory.get_category s c ∨ ∃ k, (j, k, c) ∈ l) := by
  induction l generalizing s with
  | nil => simp [applyRegs]
  | cons hd tl ih =>
      obtain ⟨n, k0, cat⟩ := hd
      rw [applyRegs, ih, register_mem_category]
      simp only [List.mem_cons, Prod.mk.injEq]
      constructor
      · rintro ((hm | ⟨rfl, rfl⟩) | ⟨k, hk⟩)
        · exact Or.inl hm
        · exact Or.inr ⟨k0, Or.inl ⟨rfl, rfl, rfl⟩⟩
        · exact Or.inr ⟨k, Or.inr hk⟩
      · rintro (hm | ⟨k, (⟨rfl, rfl, rfl⟩ | htl)⟩)
        · exact Or.inl (Or.inl hm)
        · exact Or.inl (Or.inr ⟨rfl, rfl⟩)
        · exact Or.inr ⟨k, htl⟩

theorem applyRegs_lookup (l : List (String × Pizza × String)) (s : FactoryState)
    (j : String) :
    (∃ p, lookupAssoc (applyRegs s l).registry j = some p) ↔
      ((∃ p, lookupAssoc s.registry j = some p) ∨ ∃ k c, (j, k, c) ∈ l) := by
  induction l generalizing s with
  | nil => simp [applyRegs]
  | cons hd tl ih =>
      obtain ⟨n, k0, cat⟩ := hd
      rw [applyRegs, ih]
      by_cases hj : j = n
      · subst hj
        constructor
        · intro _
          exact Or.inr ⟨k0, cat, List.mem_cons_self _ _⟩
        · intro _
          refine Or.inl ⟨k0, ?_⟩
          rw [register_lookup, if_pos rfl]
      · have hreg : lookupAssoc (PizzaFactory.register s n k0 cat).registry j =
            lookupAssoc s.registry j := by rw [register_lookup, if_neg hj]
        rw [hreg]
        constructor
        · rintro (hp | ⟨k, c, hk⟩)
          · exact Or.inl hp
          · exact Or.inr ⟨k, c, List.mem_cons_of_mem _ hk⟩
        · rintro (hp | ⟨k, c, hk⟩)
          · exact Or.inl hp
          · rcases List.mem_cons.mp hk with heq | htl
            · exact absurd (congrArg Prod.fst heq) hj
            · exact Or.inr ⟨k, c, htl⟩

/-! ### Claim theorems -/

/-- C2: `Registry.create(n)` (`PizzaFactory.get_pizza`) returns a freshly
constructed item of exactly the variant registered for `n` when `n` is
present in the registry, and fails with `UnknownItemType` if and only if
`n` has no registered constructor. -/
theorem claim_c2_registry_create (s : FactoryState) (n : String) :
    (∀ p, lookupAssoc s.registry n = some p →
        PizzaFactory.get_pizza s n = Except.ok p)
    ∧ (lookupAssoc s.registry n = none ↔
        PizzaFactory.get_pizza s n = Except.error (PizzaError.unknownPizzaType n)) := by
  cases hl : lookupAssoc s.registry n <;> simp [PizzaFactory.get_pizza, hl]

/-- C2 witness: "margherita" is registered and created as such;
"pepperoni" is absent and fails with the unknown-type error. -/
theorem claim_c2_witness :
    PizzaFactory.get_pizza initialState "margherita" = Except.ok Pizza.margherita
    ∧ PizzaFactory.get_pizza initialState "pepperoni"
        = Except.error (PizzaError.unknownPizzaType "pepperoni") :=
  ⟨(claim_c2_registry_create initialState "margherita").1 Pizza.margherita (by decide),
   (claim_c2_registry_create initialState "pepperoni").2.mp (by decide)⟩

/-- C3: a category handler (`VegChef.prepare_pizza` /
`NonVegChef.prepare_pizza`) returns `Registry.create(n)` when `n` is a
member of its assigned category's member set, and fails with
`CategoryMismatch` when it is not. -/
theorem claim_c3_category_handler (s : FactoryState) (n : String) :
    (n ∈ PizzaFactory.get_category s "veg" →
        VegChef.prepare_pizza s n = PizzaFactory.get_pizza s n)
    ∧ (n ∉ PizzaFactory.get_category s "veg" →
        VegChef.prepare_pizza s n = Except.error (PizzaError.chefCantPrepare "VegChef" n))
    ∧ (n ∈ PizzaFactory.get_category s "nonveg" →
        NonVegChef.prepare_pizza s n = PizzaFactory.get_pizza s n)
    ∧ (n ∉ PizzaFactory.get_category s "nonveg" →
        NonVegChef.prepare_pizza s n
          = Except.error (PizzaError.chefCantPrepare "NonVegChef" n)) := by
  refine ⟨fun h => ?_, fun h => ?_, fun h => ?_, fun h => ?_⟩ <;>
    simp [VegChef.prepare_pizza, NonVegChef.prepare_pizza, h]

/-- C3 witness: "paneer" is in the veg category, so `VegChef` resolves it
via the registry while `NonVegChef` rejects it with its mismatch error. -/
theorem claim_c3_witness :
    VegChef.prepare_pizza initialState "paneer" = PizzaFactory.get_pizza initialState "paneer"
    ∧ NonVegChef.prepare_pizza initialState "paneer"
        = Except.error (PizzaError.chefCantPrepare "NonVegChef" "paneer") :=
  ⟨(claim_c3_category_handler initialState "paneer").1 (by decide),
   (claim_c3_category_handler initialState "paneer").2.2.2 (by decide)⟩

/-- C4: `Intake.takeOrder(name, id)` (`Receptionist.take_order`) on
successful resolution returns a new `Order` with the supplied id and the
item returned by the dispatcher; on failure it propagates the
dispatcher's error unchanged and no `Order` is produced. -/
theorem claim_c4_take_order (chefs : List (String → Except PizzaError Pizza))
    (t : String) (oid : Nat) :
    (∀ p, HeadChef.place_order chefs t = Except.ok p →
        Receptionist.take_order chefs t oid = Except.ok ⟨oid, p⟩)
    ∧ (∀ e, HeadChef.place_order chefs t = Except.error e →
        Receptionist.take_order chefs t oid = Except.error e) := by
  constructor <;> intro x hx <;> simp [Receptionist.take_order, hx]

/-- C4 witness: the spec scenarios — taking the order ("paneer", 5) yields
an order with id 5 wrapping a paneer pizza, and ("shrimp", 2) propagates
the dispatcher's no-handler error. -/
theorem claim_c4_witness :
    Receptionist.take_order (simChefs initialState) "paneer" 5
        = Except.ok ⟨5, Pizza.paneer⟩
    ∧ Receptionist.take_order (simChefs initialState) "shrimp" 2
        = Except.error (PizzaError.noChefAvailable "shrimp") :=
  ⟨(claim_c4_take_order (simChefs initialState) "paneer" 5).1 Pizza.paneer (by decide),
   (claim_c4_take_order (simChefs initialState) "shrimp" 2).2
     (PizzaError.noChefAvailable "shrimp") (by decide)⟩

/-- C5: `register(name, constructor, category)` inserts or overwrites the
constructor mapped to `name`, adds `name` to the named category's member
set (creating the category if absent), preserves existing memberships,
and registering the same name under two different categories leaves it a
member of both. -/
theorem claim_c5_register (s : FactoryState) (n : String) (k k1 k2 : Pizza)
    (cat c1 c2 : String) :
    lookupAssoc (PizzaFactory.register s n k cat).registry n = some k
    ∧ n ∈ PizzaFactory.get_category (PizzaFactory.register s n k cat) cat
    ∧ (∀ m c, m ∈ PizzaFactory.get_category s c →
        m ∈ PizzaFactory.get_category (PizzaFactory.register s n k cat) c)
    ∧ n ∈ PizzaFactory.get_category
        (PizzaFactory.register (PizzaFactory.register s n k1 c1) n k2 c2) c1
    ∧ n ∈ PizzaFactory.get_category
        (PizzaFactory.register (PizzaFactory.register s n k1 c1) n k2 c2) c2 := by
  refine ⟨?_, ?_, ?_, ?_, ?_⟩
  · rw [register_lookup, if_pos rfl]
  · exact (register_mem_category s n k cat n cat).mpr (Or.inr ⟨rfl, rfl⟩)
  · intro m c hm
    exact (register_mem_category s n k cat m c).mpr (Or.inl hm)
  · exact (register_mem_category (PizzaFactory.register s n k1 c1) n k2 c2 n c1).mpr
      (Or.inl ((register_mem_category s n k1 c1 n c1).mpr (Or.inr ⟨rfl, rfl⟩)))
  · exact (register_mem_category (PizzaFactory.register s n k1 c1) n k2 c2 n c2).mpr
      (Or.inr ⟨rfl, rfl⟩)

/-- C5 witness: registering a new nonveg name on the initial state leaves
the existing "margherita" membership of "veg" intact. -/
theorem claim_c5_witness :
    "margherita" ∈ PizzaFactory.get_category
        (PizzaFactory.register initialState "tandoori" Pizza.chicken "nonveg") "veg" :=
  (claim_c5_register initialState "tandoori" Pizza.chicken Pizza.chicken Pizza.chicken
      "nonveg" "veg" "nonveg").2.2.1 "margherita" "veg" (by decide)

/-- C6: `membersOf(c)` (`PizzaFactory.get_category`) returns exactly the
set of names registered under category `c` (for any state built from
register calls), and returns the empty set without error when `c` is
unknown. -/
theorem claim_c6_get_category (l : List (String × Pizza × String)) (n c : String)
    (s : FactoryState) :
    (n ∈ PizzaFactory.get_category (applyRegs emptyFactory l) c ↔ ∃ k, (n, k, c) ∈ l)
    ∧ (lookupAssoc s.categories c = none → PizzaFactory.get_category s c = []) := by
  constructor
  · rw [applyRegs_mem_category]
    simp [PizzaFactory.get_category, emptyFactory, lookupAssoc]
  · intro h
    rw [PizzaFactory.get_category, h]
    rfl

/-- C6 witness: "margherita" membership of "veg" comes from a
registration, and the unknown category "dessert" yields the empty set on
the initialised state. -/
theorem claim_c6_witness :
    (∃ k, ("margherita", k, "veg") ∈ initRegs)
    ∧ PizzaFactory.get_category initialState "dessert" = [] :=
  ⟨(claim_c6_get_category initRegs "margherita" "veg" initialState).1.mp (by decide),
   (claim_c6_get_category initRegs "margherita" "dessert" initialState).2 (by decide)⟩

/-- The module-initialised registry satisfies the membership invariant:
every name in a category set has a registered constructor. -/
theorem initialState_inv : RegistryInv initialState := by
  intro n c hm
  rcases (applyRegs_mem_category initRegs emptyFactory n c).mp hm with hm0 | ⟨k, hk⟩
  · simp [PizzaFactory.get_category, emptyFactory, lookupAssoc] at hm0
  · exact (applyRegs_lookup initRegs emptyFactory n).mpr (Or.inr ⟨k, c, hk⟩)

/-- C1: for a registry state whose category members are all registered
(as the configured state is), `Dispatcher.resolve(n)`
(`HeadChef.place_order` over the configured veg/nonveg chefs) returns an
item iff `n` is a member of some configured handler's category; otherwise
it fails with `NoHandlerAvailable`; and any error it surfaces is
`NoHandlerAvailable` — a handler's `CategoryMismatch` is absorbed by the
fallback loop and never reaches the caller. -/
theorem claim_c1_dispatcher_resolve (s : FactoryState) (h : RegistryInv s) (n : String) :
    ((∃ p, HeadChef.place_order (simChefs s) n = Except.ok p) ↔
      (n ∈ PizzaFactory.get_category s "veg" ∨ n ∈ PizzaFactory.get_category s "nonveg"))
    ∧ (¬(n ∈ PizzaFactory.get_category s "veg"
          ∨ n ∈ PizzaFactory.get_category s "nonveg") →
        HeadChef.place_order (simChefs s) n
          = Except.error (PizzaError.noChefAvailable n))
    ∧ (∀ e, HeadChef.place_order (simChefs s) n = Except.error e →
        e = PizzaError.noChefAvailable n) := by
  by_cases hv : n ∈ PizzaFactory.get_category s "veg"
  · obtain ⟨p, hp⟩ := h n "veg" hv
    have hres : HeadChef.place_order (simChefs s) n = Except.ok p := by
      simp [simChefs, HeadChef.place_order, VegChef.prepare_pizza, hv,
        PizzaFactory.get_pizza, hp]
    refine ⟨⟨fun _ => Or.inl hv, fun _ => ⟨p, hres⟩⟩,
      fun hno => absurd (Or.inl hv) hno, ?_⟩
    intro e he
    rw [hres] at he
    exact Except.noConfusion he
  · by_cases hnv : n ∈ PizzaFactory.get_category s "nonveg"
    · obtain ⟨p, hp⟩ := h n "nonveg" hnv
      have hres : HeadChef.place_order (simChefs s) n = Except.ok p := by
        simp [simChefs, HeadChef.place_order, VegChef.prepare_pizza,
          NonVegChef.prepare_pizza, hv, hnv, PizzaFactory.get_pizza, hp]
      refine ⟨⟨fun _ => Or.inr hnv, fun _ => ⟨p, hres⟩⟩,
        fun hno => absurd (Or.inr hnv) hno, ?_⟩
      intro e he
      rw [hres] at he
      exact Except.noConfusion he
    · have hres : HeadChef.place_order (simChefs s) n
          = Except.error (PizzaError.noChefAvailable n) := by
        simp [simChefs, HeadChef.place_order, VegChef.prepare_pizza,
          NonVegChef.prepare_pizza, hv, hnv]
      refine ⟨⟨?_, ?_⟩, fun _ => hres, ?_⟩
      · rintro ⟨p, hp⟩
        rw [hres] at hp
        exact Except.noConfusion hp
      · rintro (hmem | hmem)
        · exact absurd hmem hv
        · exact absurd hmem hnv
      · intro e he
        rw [hres] at he
        exact (Except.error.inj he).symm

/-- C1 witness: on the configured state, "pepperoni" belongs to no
handler's category and the dispatcher fails with the no-handler error. -/
theorem claim_c1_witness :
    HeadChef.place_order (simChefs initialState) "pepperoni"
      = Except.error (PizzaError.noChefAvailable "pepperoni") :=
  (claim_c1_dispatcher_resolve initialState initialState_inv "pepperoni").2.1 (by decide)

/-- C9: invariant preserved by every sequence of register calls from the
empty registry — every category member has a registered constructor — so
a category handler whose membership check succeeds cannot fail with
`UnknownItemType` on the subsequent registry lookup. -/
theorem claim_c9_registry_invariant (l : List (String × Pizza × String)) (n c : String) :
    (n ∈ PizzaFactory.get_category (applyRegs emptyFactory l) c →
      ∃ p, lookupAssoc (applyRegs emptyFactory l).registry n = some p)
    ∧ (n ∈ PizzaFactory.get_category (applyRegs emptyFactory l) "veg" →
      ∃ p, VegChef.prepare_pizza (applyRegs emptyFactory l) n = Except.ok p)
    ∧ (n ∈ PizzaFactory.get_category (applyRegs emptyFactory l) "nonveg" →
      ∃ p, NonVegChef.prepare_pizza (applyRegs emptyFactory l) n = Except.ok p) := by
  have key : ∀ c2, n ∈ PizzaFactory.get_category (applyRegs emptyFactory l) c2 →
      ∃ p, lookupAssoc (applyRegs emptyFactory l).registry n = some p := by
    intro c2 hm
    rcases (applyRegs_mem_category l emptyFactory n c2).mp hm with hm0 | ⟨k, hk⟩
    · simp [PizzaFactory.get_category, emptyFactory, lookupAssoc] at hm0
    · exact (applyRegs_lookup l emptyFactory n).mpr (Or.inr ⟨k, c2, hk⟩)
  refine ⟨key c, fun hm => ?_, fun hm => ?_⟩
  · obtain ⟨p, hp⟩ := key "veg" hm
    exact ⟨p, by simp [VegChef.prepare_pizza, hm, PizzaFactory.get_pizza, hp]⟩
  · obtain ⟨p, hp⟩ := key "nonveg" hm
    exact ⟨p, by simp [NonVegChef.prepare_pizza, hm, PizzaFactory.get_pizza, hp]⟩

/-- C9 witness: "farmhouse" is a veg member of the initialised registry,
so the veg chef's resolution succeeds. -/
theorem claim_c9_witness :
    ∃ p, VegChef.prepare_pizza (applyRegs emptyFactory initRegs) "farmhouse"
      = Except.ok p :=
  (claim_c9_registry_invariant initRegs "farmhouse" "veg").2.1 (by decide)

/-- C10: the dispatcher's fallback loop absorbs every error a handler
raises (the Python `except ValueError` catches them all, whatever their
kind), continuing with the next handler; consequently the only error
`place_order` can surface is `NoHandlerAvailable`. -/
theorem claim_c10_absorbs_all_errors (e : PizzaError)
    (rest chefs : List (String → Except PizzaError Pizza)) (t : String) :
    HeadChef.place_order ((fun _ => Except.error e) :: rest) t
        = HeadChef.place_order rest t
    ∧ (∀ e2, HeadChef.place_order chefs t = Except.error e2 →
        e2 = PizzaError.noChefAvailable t) := by
  constructor
  · rfl
  · intro e2
    induction chefs with
    | nil =>
        intro he
        exact (Except.error.inj he).symm
    | cons chef cs ih =>
        intro he
        cases hc : chef t with
        | ok p =>
            rw [HeadChef.place_order, hc] at he
            exact Except.noConfusion he
        | error e3 =>
            rw [HeadChef.place_order, hc] at he
            exact ih he

/-- C10 witness: a handler failing with `UnknownItemType` is skipped
exactly as a mismatch would be, and the error the configured dispatcher
reports for "shrimp" is the no-handler error. -/
theorem claim_c10_witness :
    HeadChef.place_order
        ((fun _ => Except.error (PizzaError.unknownPizzaType "shrimp"))
          :: simChefs initialState) "shrimp"
      = HeadChef.place_order (simChefs initialState) "shrimp"
    ∧ PizzaError.noChefAvailable "shrimp" = PizzaError.noChefAvailable "shrimp" :=
  ⟨(claim_c10_absorbs_all_errors (PizzaError.unknownPizzaType "shrimp")
      (simChefs initialState) (simChefs initialState) "shrimp").1,
   (claim_c10_absorbs_all_errors (PizzaError.unknownPizzaType "shrimp")
      (simChefs initialState) (simChefs initialState) "shrimp").2
      (PizzaError.noChefAvailable "shrimp") (by decide)⟩

/-- C7: `Order.deliver` prints the delivery line for this order's id and
then invokes the wrapped item's `prepare` capability — the same
observable item effect as `Order.prepare` produces, not a distinct
delivery behaviour of the item. -/
theorem claim_c7_deliver_reprepares (o : Order) :
    (Order.deliver o).2
        = ["Waiter: Delivering Order #" ++ toString o.order_id, Pizza.prepare o.pizza]
    ∧ (Order.deliver o).2.drop 1 = (Order.prepare o).2.drop 1 :=
  ⟨rfl, rfl⟩

/-- One call of `Order.prepare`, viewed as a state transformer on the
order object. -/
def prepStep (o : Order) : Order := (Order.prepare o).1

/-- C8: `Order.prepare` and `Order.deliver` leave the order's fields
unchanged, and any number of `prepare` calls leaves the order fixed with
each call producing the same observable output. -/
theorem claim_c8_prepare_idempotent (o : Order) (m : Nat) :
    (Order.prepare o).1 = o
    ∧ (Order.deliver o).1 = o
    ∧ prepStep^[m] o = o
    ∧ (Order.prepare (prepStep^[m] o)).2 = (Order.prepare o).2 := by
  have hfix : prepStep^[m] o = o := Function.iterate_fixed rfl m
  exact ⟨rfl, rfl, hfix, by rw [hfix]⟩

example : PizzaFactory.get_pizza initialState "margherita" = .ok .margherita := by decide
example : HeadChef.place_order (simChefs initialState) "chicken" = .ok .chicken := by decide
example : HeadChef.place_order (simChefs initialState) "pepperoni"
    = .error (.noChefAvailable "pepperoni") := by decide
example : Receptionist.take_order (simChefs initialState) "paneer" 5
    = .ok ⟨5, .paneer⟩ := by decide
